import Mathlib

/-!
Verification development for the feedenrich evidence-gated proposal pipeline.

The Go components under review are embedded shallowly:

* Go strings are Lean `String`; `len` is the UTF-8 byte count (`goStrLen`);
  iteration over a string ranges over its characters, as Go ranges over runes.
* Go `float64` values (confidences, similarity ratios) are embedded as `ℚ`;
  every constant the code compares against (0.3, 0.5, 0.7, 0.85, 0.9) and
  every ratio it forms is an exact small rational, so the comparisons under
  scrutiny are faithful to the source in the range the claims exercise.
* Go maps keyed by strings are embedded as association lists or as key lists
  deduplicated with `List.dedup`; sums and maxima taken over map iteration are
  order-independent, so the arbitrary Go iteration order is immaterial.
* `strings.ToLower` is embedded with `Char.toLower` (ASCII case mapping); all
  concrete inputs in this development are ASCII.
-/

namespace FeedEnrich

/-- Embeds strings.ToLower (ASCII case mapping). -/
def goToLower (s : String) : String := String.mk (s.data.map Char.toLower)

/-- Byte size of one character under UTF-8, as Go len counts it. -/
def charUtf8Len (c : Char) : Nat :=
  if c.val < 128 then 1 else if c.val < 2048 then 2 else if c.val < 65536 then 3 else 4

/-- Embeds Go len(s): the UTF-8 byte length of the string. -/
def goStrLen (s : String) : Nat := s.data.foldl (fun n c => n + charUtf8Len c) 0

/-- Does the first character list start with the second? -/
def listStartsWith : List Char → List Char → Bool
  | _, [] => true
  | [], _ :: _ => false
  | c :: s, p :: ps => c == p && listStartsWith s ps

/-- Embeds strings.HasPrefix. -/
def goStartsWith (s pat : String) : Bool := listStartsWith s.data pat.data

/-- Substring occurrence on character lists. -/
def listContainsSub : List Char → List Char → Bool
  | [], pat => listStartsWith [] pat
  | c :: rest, pat => listStartsWith (c :: rest) pat || listContainsSub rest pat

/-- Embeds strings.Contains. -/
def goContains (s pat : String) : Bool := listContainsSub s.data pat.data

/-- Embeds unicode.IsSpace on the code points Go treats as white space in the
Latin-1 range. -/
def goIsSpace (c : Char) : Bool :=
  c == ' ' || c == '\t' || c == '\n' || c == '\x0b' || c == '\x0c' || c == '\r' ||
  c == '\u0085' || c == ' '

/-- Splits a character stream at separators, dropping empty fields; the second
argument accumulates the current word reversed. -/
def splitChars (isSep : Char → Bool) : List Char → List Char → List String
  | [], acc => if acc.isEmpty then [] else [String.mk acc.reverse]
  | c :: rest, acc =>
    if isSep c then
      if acc.isEmpty then splitChars isSep rest []
      else String.mk acc.reverse :: splitChars isSep rest []
    else splitChars isSep rest (c :: acc)

/-- Embeds strings.Fields. -/
def goFields (s : String) : List String := splitChars goIsSpace s.data []

/-- The separator set of tokenize (diff.go lines 192-213). -/
def isTokenizeSep (c : Char) : Bool :=
  c == ' ' || c == '\t' || c == '\n' || c == ',' || c == '.' || c == ';'

/-- Embeds tokenize (diff.go lines 192-213): split on space, tab, newline,
comma, period and semicolon, dropping empty words. -/
def tokenize (s : String) : List String := splitChars isTokenizeSep s.data []

/-- Does the string contain an ASCII digit? Embeds the hasNumber loop of
isDescriptionNotValue (agent.go lines 1350-1357). -/
def goHasDigit (s : String) : Bool := s.data.any (fun c => decide ('0' ≤ c ∧ c ≤ '9'))

/-- Embeds strings.TrimSpace. -/
def goTrimSpace (s : String) : String :=
  String.mk (((s.data.dropWhile goIsSpace).reverse.dropWhile goIsSpace).reverse)

/-- Embeds strings.TrimRight: drop trailing characters belonging to cutset. -/
def goTrimRight (s cutset : String) : String :=
  String.mk ((s.data.reverse.dropWhile (fun c => cutset.data.contains c)).reverse)

/-- Embeds strings.Replace(s, ".", "", 1): remove the first period, if any. -/
def goReplaceFirstDot : List Char → List Char
  | [] => []
  | c :: rest => if c = '.' then rest else c :: goReplaceFirstDot rest

/-- Embeds Go int(f) on float64: truncation toward zero. -/
def goTruncInt (q : ℚ) : ℤ := if 0 ≤ q then q.floor else q.ceil

/-- Embeds the int → int32 (rune) conversion: wrap modulo 2^32 into
[-2^31, 2^31). -/
def wrapInt32 (i : ℤ) : ℤ := (i + 2147483648) % 4294967296 - 2147483648

/-- Embeds Go string(rune(i)) for an int i: the one-character string at that
code point, or the replacement character U+FFFD when the wrapped value is not
a valid code point. -/
def goRuneToString (i : ℤ) : String :=
  let r := wrapInt32 i
  if 0 ≤ r ∧ (r < 55296 ∨ (57343 < r ∧ r ≤ 1114111)) then String.mk [Char.ofNat r.toNat]
  else "\uFFFD"

/-! ### DiffEngine (internal/agent/tools/diff.go) -/

/-- The result record of ComputeDiff. The byte-level Changes list built by
buildChanges is not modelled; no claim concerns it. -/
structure Diff where
  field : String
  before : String
  after : String
  changeType : String
  addedWords : List String
  removedWords : List String
  similarity : ℚ
deriving DecidableEq

/-- Embeds DiffEngine.ComputeDiff (diff.go lines 34-105). The Go source
classifies with a four-way if chain whose first two branches (added/removed)
are unreachable when before == after, so the equal case is lifted first; the
word sets are Go maps keyed by lower-cased words, embedded as deduplicated
key lists. -/
def computeDiff (field before after : String) : Diff :=
  if before = after then
    { field := field, before := before, after := after, changeType := "unchanged",
      addedWords := [], removedWords := [], similarity := 1 }
  else
    let changeType := if before = "" then "added" else if after = "" then "removed" else "modified"
    let beforeWords := tokenize before
    let afterWords := tokenize after
    let beforeKeys := (beforeWords.map goToLower).dedup
    let afterKeys := (afterWords.map goToLower).dedup
    let addedWords := afterWords.filter (fun w => !(beforeKeys.contains (goToLower w)))
    let removedWords := beforeWords.filter (fun w => !(afterKeys.contains (goToLower w)))
    let similarity : ℚ :=
      if beforeKeys.length = 0 ∧ afterKeys.length = 0 then 1
      else
        let inter := (beforeKeys.filter (fun w => afterKeys.contains w)).length
        let union := beforeKeys.length + afterKeys.length - inter
        if 0 < union then (inter : ℚ) / (union : ℚ) else 0
    { field := field, before := before, after := after, changeType := changeType,
      addedWords := addedWords, removedWords := removedWords, similarity := similarity }

/-- The similarity the spec describes: the Jaccard index, intersection size
over union size of the lower-cased word sets, defined as 1.0 when both sets
are empty. Stated from the spec wording, for comparison with computeDiff. -/
def jaccardSimilarity (before after : String) : ℚ :=
  let bKeys := ((tokenize before).map goToLower).dedup
  let aKeys := ((tokenize after).map goToLower).dedup
  let inter := (bKeys.filter (fun w => aKeys.contains w)).length
  let union := bKeys.length + aKeys.length - inter
  if bKeys = [] ∧ aKeys = [] then 1 else (inter : ℚ) / (union : ℚ)

/-! ### RiskClassifier (src/unnamed/part_001) -/

/-- The high-risk field set of NewRiskClassifier. -/
def highRiskFields : List String :=
  ["material", "ingredients", "weight", "dimensions", "capacity", "voltage", "wattage",
   "compatibility", "certifications", "warranty", "age_group", "energy_class"]

/-- The high-risk keyword list of NewRiskClassifier, in source order. -/
def highRiskKeywords : List String :=
  ["organic", "bio", "natural", "hypoallergenic", "dermatologically tested",
   "clinically proven", "medical", "therapeutic", "healing",
   "fireproof", "waterproof", "shockproof", "childproof", "non-toxic",
   "food-grade", "bpa-free", "lead-free",
   "certified", "approved", "compliant", "patented", "trademarked",
   "best", "fastest", "strongest", "most efficient", "guaranteed",
   "made in", "manufactured in", "assembled in"]

/-- Embeds calculateChangeRatio (part_001 lines 216-261). The Go count maps
are embedded with List.count; the loop over beforeSet iterates each distinct
word of before once, adding the minimum of its two multiplicities (a word
absent from afterSet is skipped, which equals adding min with 0). -/
def calculateChangeRatio (before after : String) : ℚ :=
  if before = "" ∧ after = "" then 0
  else if before = "" then 1
  else if after = "" then 1
  else
    let beforeWords := goFields (goToLower before)
    let afterWords := goFields (goToLower after)
    let common := beforeWords.dedup.foldl
      (fun acc w => acc + min (beforeWords.count w) (afterWords.count w)) 0
    let total := beforeWords.length + afterWords.length
    if total = 0 then 0
    else 1 - ((common * 2 : ℕ) : ℚ) / (total : ℚ)

/-- The RiskAssessment record (part_001 lines 18-23). -/
structure RiskAssessment where
  level : String
  reasons : List String
  requiresHuman : Bool
  confidence : ℚ
deriving DecidableEq

/-- AssessChange steps on part_001 lines 70-95: initial assessment, the
high-risk field check, and the loop flagging newly introduced high-risk
keywords. -/
def riskFieldAndKeywords (field before after : String) (confidence : ℚ) : RiskAssessment :=
  let a0 : RiskAssessment :=
    { level := "low", reasons := [], requiresHuman := false, confidence := confidence }
  let a1 :=
    if highRiskFields.contains (goToLower field) then
      { a0 with level := "high", requiresHuman := true,
                reasons := a0.reasons ++ ["high-risk field: " ++ field] }
    else a0
  highRiskKeywords.foldl (fun a keyword =>
    if goContains (goToLower after) (goToLower keyword) &&
       !(goContains (goToLower before) (goToLower keyword)) then
      { a with level := "high", requiresHuman := true,
               reasons := a.reasons ++ ["new high-risk keyword: " ++ keyword] }
    else a) a1

/-- AssessChange steps on part_001 lines 97-118: source-type escalation and
the two confidence checks, ending with the hard floor at confidence 0.5. -/
def riskSourceAndConfidence (a : RiskAssessment) (sourceType : String) (confidence : ℚ) :
    RiskAssessment :=
  let a3 :=
    if sourceType = "web" ∧ a.level ≠ "high" then
      { a with level := "medium", reasons := a.reasons ++ ["sourced from web"] }
    else a
  let a4 :=
    if sourceType = "image" ∧ a3.level ≠ "high" then
      { a3 with level := "medium", reasons := a3.reasons ++ ["inferred from image"] }
    else a3
  let a5 :=
    if confidence < 7/10 ∧ a4.level ≠ "high" then
      { a4 with level := "medium",
                reasons := a4.reasons ++
                  ["low confidence: " ++ goRuneToString (goTruncInt (confidence * 100)) ++ "%"] }
    else a4
  if confidence < 1/2 then
    { a5 with level := "high", requiresHuman := true,
              reasons := a5.reasons ++ ["very low confidence"] }
  else a5

/-- AssessChange steps on part_001 lines 120-130: escalation on the magnitude
of the change. -/
def riskChangeMagnitude (a : RiskAssessment) (changeRatio : ℚ) : RiskAssessment :=
  let a7 :=
    if changeRatio > 7/10 ∧ a.level ≠ "high" then
      { a with level := "medium", reasons := a.reasons ++ ["significant content change"] }
    else a
  if changeRatio > 9/10 then
    { a7 with level := "high", requiresHuman := true,
              reasons := a7.reasons ++ ["near-complete rewrite"] }
  else a7

/-- AssessChange steps on part_001 lines 132-143: affirmative reasons when the
assessment stayed low with no recorded reasons. -/
def riskLowReasons (a : RiskAssessment) (sourceType : String) (confidence changeRatio : ℚ) :
    RiskAssessment :=
  if a.level = "low" ∧ a.reasons = [] then
    let r1 := if sourceType = "feed" then a.reasons ++ ["data from original feed"] else a.reasons
    let r2 := if confidence ≥ 9/10 then r1 ++ ["high confidence"] else r1
    let r3 := if changeRatio < 3/10 then r2 ++ ["minor change"] else r2
    { a with reasons := r3 }
  else a

/-- Embeds RiskClassifier.AssessChange (part_001 lines 69-146), as the
composition of its four sequential blocks. -/
def assessChange (field before after sourceType : String) (confidence : ℚ) : RiskAssessment :=
  let a2 := riskFieldAndKeywords field before after confidence
  let a6 := riskSourceAndConfidence a2 sourceType confidence
  let changeRatio := calculateChangeRatio before after
  let a8 := riskChangeMagnitude a6 changeRatio
  riskLowReasons a8 sourceType confidence changeRatio

/-! ### Fast-mode screening (internal/agent/agent.go) -/

/-- The description-pattern list of isDescriptionNotValue (agent.go 1312-1328). -/
def invalidPatterns : List String :=
  ["correct price", "valid product", "should be", "needs to be", "must be",
   "from landing page", "without watermarks", "recommended action", "needs update",
   "to be fixed", "requires review", "human review", "manual check", "verify this",
   "check the"]

/-- The URL-typed field name fragments of isDescriptionNotValue (agent.go 1337). -/
def urlFieldNames : List String := ["link", "image_link", "image", "url", "additional_image_link"]

/-- The price-typed field names of isDescriptionNotValue (agent.go 1347). -/
def priceFieldNames : List String := ["price", "sale_price"]

/-- Embeds isDescriptionNotValue (agent.go lines 1307-1365). Each Go loop
applies the same test to every element and returns true at the first failing
element, so the loops are rendered with List.any. -/
def isDescriptionNotValue (value field : String) : Bool :=
  let lower := goToLower value
  if invalidPatterns.any (fun pat => goContains lower pat) then true
  else if urlFieldNames.any (fun uf => goContains (goToLower field) uf) &&
          !(goStartsWith value "http://" || goStartsWith value "https://") then true
  else if priceFieldNames.any (fun pf => goToLower field == pf) && !(goHasDigit value) then true
  else false

/-- Embeds the deterministic screening of the proposal loop in runFastMode
(agent.go lines 1140-1157): a candidate is kept exactly when no skip
condition fires, in source order. -/
def fastModeKeeps (field before after : String) (confidence : ℚ) : Bool :=
  if after = "" ∨ after = before then false
  else if confidence < 3/10 then false
  else if isDescriptionNotValue after field then false
  else true

/-! ### FastPipeline deterministic validation
(internal/agent/pipeline/fast_pipeline.go) -/

/-- The candidate proposal record consumed by the FastPipeline control stage. -/
structure FastProposal where
  field : String
  before : String
  after : String
  confidence : ℚ
deriving DecidableEq

/-- Embeds validateProposalDeterministic (fast_pipeline.go lines 408-432);
the length comparison is Go integer division, len(after) < len(before)/2. -/
def validateProposalDeterministic (prop : FastProposal) : Bool :=
  if prop.after = prop.before then false
  else if prop.after = "" then false
  else if goStrLen prop.after < goStrLen prop.before / 2 then false
  else if prop.confidence < 3/10 then false
  else true

/-! ### EvidenceRegistry (src/unnamed/part_003)

The registry is embedded as the list of Evidence records in registration
order. The Go byField index appends evidence identifiers at registration
time, so GetEvidenceForField returns a field's evidence in registration
order, which filtering the global list reproduces. UUIDs, product
identifiers, timestamps and the source descriptor are bookkeeping no claim
touches and are not modelled. -/

/-- The Evidence record (part_003 lines 20-31), restricted to the fields the
claims concern. -/
structure Evidence where
  field : String
  value : String
  sourceType : String
  confidence : ℚ
  verified : Bool
deriving DecidableEq

/-- Embeds RegisterFromFeed (part_003 lines 50-76): confidence 1.0,
verified true. -/
def feedEvidence (field value : String) : Evidence :=
  { field := field, value := value, sourceType := "feed", confidence := 1, verified := true }

/-- Embeds RegisterFromImage (part_003 lines 79-105): auto-verified at
confidence at least 0.85. -/
def imageEvidence (field value : String) (confidence : ℚ) : Evidence :=
  { field := field, value := value, sourceType := "image", confidence := confidence,
    verified := decide (85/100 ≤ confidence) }

/-- Embeds RegisterFromWeb (part_003 lines 108-134): never verified at
registration. -/
def webEvidence (field value : String) (confidence : ℚ) : Evidence :=
  { field := field, value := value, sourceType := "web", confidence := confidence,
    verified := false }

/-- Embeds RegisterFromUser (part_003 lines 137-163): confidence 1.0,
verified true. -/
def userEvidence (field value : String) : Evidence :=
  { field := field, value := value, sourceType := "user", confidence := 1, verified := true }

/-- Embeds GetEvidenceForField (part_003 lines 173-185). -/
def getEvidenceForField (reg : List Evidence) (field : String) : List Evidence :=
  reg.filter (fun ev => ev.field == field)

/-- One iteration of the GetBestEvidence loop (part_003 lines 192-199):
skip unverified evidence, keep the strictly larger confidence. -/
def bestStep (best : Option Evidence) (ev : Evidence) : Option Evidence :=
  if ev.verified = false then best
  else
    match best with
    | none => some ev
    | some b => if b.confidence < ev.confidence then some ev else best

/-- Embeds GetBestEvidence (part_003 lines 188-201). -/
def getBestEvidence (reg : List Evidence) (field : String) : Option Evidence :=
  (getEvidenceForField reg field).foldl bestStep none

/-- Embeds GetAllowedFacts (part_003 lines 204-215) as the partial map it
builds: a field registered at least once maps to its best evidence value,
when one exists. -/
def getAllowedFacts (reg : List Evidence) : String → Option String :=
  fun field =>
    if (reg.map Evidence.field).contains field then (getBestEvidence reg field).map Evidence.value
    else none

/-- Registration of a batch of feed facts in order, each through
RegisterFromFeed, on a fresh registry. -/
def registerFeedAll (pairs : List (String × String)) : List Evidence :=
  pairs.map (fun p => feedEvidence p.1 p.2)

/-! ### HardRuleValidator (internal/agent/tools/validator.go)

Go decodes product JSON into map[string]interface{}; the dynamic values are
embedded as the tagged union Fv. An array or object value is carried with
its JSON rendering (constructor other), which is what Go's default branch
marshals back; no claim inspects inside such a value. A rule's dynamic Value
is embedded as RuleVal, mirroring the type assertions the rule kinds
perform; in a forbidden-words list, a none item stands for a non-string
element, which the Go loop skips. The regular-expression matcher of the
pattern rule kind is threaded as an oracle parameter matchPattern. -/

/-- A decoded JSON field value as the validator sees it. -/
inductive Fv where
  | str (s : String)
  | num (q : ℚ)
  | boolean (b : Bool)
  | null
  | other (marshalled : String)
deriving DecidableEq

/-- Embeds toString (validator.go lines 204-222). On a float64 the source
builds string(rune(int(v))), removes the first period and trims trailing
zeros and periods. -/
def toStringGo (v : Fv) : String :=
  match v with
  | .null => ""
  | .str s => s
  | .num q =>
    goTrimRight (goTrimRight (String.mk (goReplaceFirstDot (goRuneToString (goTruncInt q)).data)) "0") "."
  | .boolean b => if b then "true" else "false"
  | .other m => m

/-- A rule's dynamic Value field. -/
inductive RuleVal where
  | rnum (q : ℚ)
  | rstr (s : String)
  | rlist (items : List (Option String))
  | rnone
deriving DecidableEq

/-- The ValidationRule record (validator.go lines 15-22). -/
structure ValidationRule where
  id : String
  field : String
  type : String
  value : RuleVal
  message : String
  severity : String
deriving DecidableEq

/-- The RuleViolation record (validator.go lines 31-37). -/
structure RuleViolation where
  ruleId : String
  field : String
  message : String
  expected : String
  actual : String
deriving DecidableEq

/-- The ValidationResult record (validator.go lines 24-29). -/
structure ValidationResult where
  valid : Bool
  violations : List RuleViolation
  warnings : List RuleViolation
  checked : Nat
deriving DecidableEq

/-- Embeds checkRule (validator.go lines 91-185). -/
def checkRule (matchPattern : String → String → Bool) (rule : ValidationRule) (value : String) :
    Option RuleViolation :=
  if rule.type = "required" then
    if goTrimSpace value = "" then
      some { ruleId := rule.id, field := rule.field, message := rule.message,
             expected := "non-empty value", actual := "(empty)" }
    else none
  else if rule.type = "min_length" then
    match rule.value with
    | .rnum minLen =>
      if (goStrLen value : ℤ) < goTruncInt minLen then
        some { ruleId := rule.id, field := rule.field, message := rule.message,
               expected := goRuneToString (goTruncInt minLen) ++ "+ characters",
               actual := goRuneToString (goStrLen value : ℤ) ++ " characters" }
      else none
    | _ => none
  else if rule.type = "max_length" then
    match rule.value with
    | .rnum maxLen =>
      if (goStrLen value : ℤ) > goTruncInt maxLen then
        some { ruleId := rule.id, field := rule.field, message := rule.message,
               expected := "max " ++ goRuneToString (goTruncInt maxLen) ++ " characters",
               actual := goRuneToString (goStrLen value : ℤ) ++ " characters" }
      else none
    | _ => none
  else if rule.type = "pattern" then
    match rule.value with
    | .rstr pattern =>
      if matchPattern pattern value then none
      else
        some { ruleId := rule.id, field := rule.field, message := rule.message,
               expected := "match pattern: " ++ pattern, actual := value }
    | _ => none
  else if rule.type = "forbidden_words" then
    match rule.value with
    | .rlist items =>
      match items.findSome? (fun it =>
        match it with
        | some word => if goContains (goToLower value) (goToLower word) then some word else none
        | none => none) with
      | some word =>
        some { ruleId := rule.id, field := rule.field, message := rule.message,
               expected := "no forbidden words", actual := "contains \x27" ++ word ++ "\x27" }
      | none => none
    | _ => none
  else if rule.type = "url" then
    if value ≠ "" ∧ goStartsWith value "http://" = false ∧ goStartsWith value "https://" = false then
      some { ruleId := rule.id, field := rule.field, message := rule.message,
             expected := "valid URL starting with http:// or https://", actual := value }
    else none
  else none

/-- Embeds getFieldValue (validator.go lines 187-202): exact key lookup, then
a case-insensitive scan, else the empty string. -/
def getFieldValue (data : List (String × Fv)) (field : String) : String :=
  match data.lookup field with
  | some v => toStringGo v
  | none =>
    match data.find? (fun kv => goToLower kv.1 == goToLower field) with
    | some kv => toStringGo kv.2
    | none => ""

/-- One iteration of the Validate rule loop (validator.go lines 72-86). -/
def validateStep (matchPattern : String → String → Bool) (data : List (String × Fv))
    (result : ValidationResult) (rule : ValidationRule) : ValidationResult :=
  let result := { result with checked := result.checked + 1 }
  match checkRule matchPattern rule (getFieldValue data rule.field) with
  | some violation =>
    if rule.severity = "error" then
      { result with valid := false, violations := result.violations ++ [violation] }
    else
      { result with warnings := result.warnings ++ [violation] }
  | none => result

/-- The rule loop of Validate over successfully parsed data. -/
def validateParsed (matchPattern : String → String → Bool) (rules : List ValidationRule)
    (data : List (String × Fv)) : ValidationResult :=
  rules.foldl (validateStep matchPattern data)
    { valid := true, violations := [], warnings := [], checked := 0 }

/-- Embeds Validate (validator.go lines 51-89); a product blob that fails to
parse (none) yields the synthetic parse violation. -/
def validate (matchPattern : String → String → Bool) (rules : List ValidationRule)
    (productData : Option (List (String × Fv))) : ValidationResult :=
  match productData with
  | none =>
    { valid := false,
      violations := [{ ruleId := "parse_error", field := "_json",
                       message := "Failed to parse product data", expected := "", actual := "" }],
      warnings := [], checked := 0 }
  | some data => validateParsed matchPattern rules data

/-- Embeds defaultGMCRules (validator.go lines 225-270), in source order. -/
def defaultGMCRules : List ValidationRule :=
  [{ id := "gmc_id_required", field := "id", type := "required", value := .rnone,
     message := "Product ID is required", severity := "error" },
   { id := "gmc_title_required", field := "title", type := "required", value := .rnone,
     message := "Title is required", severity := "error" },
   { id := "gmc_description_required", field := "description", type := "required", value := .rnone,
     message := "Description is required", severity := "error" },
   { id := "gmc_link_required", field := "link", type := "required", value := .rnone,
     message := "Product link is required", severity := "error" },
   { id := "gmc_image_required", field := "image_link", type := "required", value := .rnone,
     message := "Image link is required", severity := "error" },
   { id := "gmc_price_required", field := "price", type := "required", value := .rnone,
     message := "Price is required", severity := "error" },
   { id := "gmc_availability_required", field := "availability", type := "required", value := .rnone,
     message := "Availability is required", severity := "error" },
   { id := "gmc_title_min", field := "title", type := "min_length", value := .rnum 30,
     message := "Title should be at least 30 characters", severity := "warning" },
   { id := "gmc_title_max", field := "title", type := "max_length", value := .rnum 150,
     message := "Title must not exceed 150 characters", severity := "error" },
   { id := "gmc_description_min", field := "description", type := "min_length", value := .rnum 50,
     message := "Description should be at least 50 characters", severity := "warning" },
   { id := "gmc_description_max", field := "description", type := "max_length", value := .rnum 5000,
     message := "Description must not exceed 5000 characters", severity := "error" },
   { id := "gmc_link_url", field := "link", type := "url", value := .rnone,
     message := "Product link must be a valid URL", severity := "error" },
   { id := "gmc_image_url", field := "image_link", type := "url", value := .rnone,
     message := "Image link must be a valid URL", severity := "error" },
   { id := "gmc_title_promo", field := "title", type := "forbidden_words",
     value := .rlist [some "free shipping", some "sale", some "discount", some "promo",
                      some "soldes", some "-50%", some "-30%", some "-20%",
                      some "livraison gratuite", some "gratuit", some "offre", some "promotion"],
     message := "Title must not contain promotional text", severity := "error" },
   { id := "gmc_description_promo", field := "description", type := "forbidden_words",
     value := .rlist [some "free shipping", some "livraison gratuite", some "click here",
                      some "buy now", some "limited time"],
     message := "Description should not contain promotional calls to action",
     severity := "warning" },
   { id := "gmc_brand_recommended", field := "brand", type := "required", value := .rnone,
     message := "Brand is strongly recommended for most categories", severity := "warning" },
   { id := "gmc_gtin_recommended", field := "gtin", type := "required", value := .rnone,
     message := "GTIN (EAN/UPC) is strongly recommended when available", severity := "warning" },
   { id := "gmc_product_type_recommended", field := "product_type", type := "required",
     value := .rnone, message := "Product type helps with categorization", severity := "info" },
   { id := "gmc_google_category_recommended", field := "google_product_category",
     type := "required", value := .rnone,
     message := "Google product category improves search relevance", severity := "info" },
   { id := "gmc_color_apparel", field := "color", type := "required", value := .rnone,
     message := "Color is required for apparel products", severity := "warning" },
   { id := "gmc_gender_apparel", field := "gender", type := "required", value := .rnone,
     message := "Gender is required for apparel (male/female/unisex)", severity := "warning" },
   { id := "gmc_age_group_apparel", field := "age_group", type := "required", value := .rnone,
     message := "Age group is required for apparel (adult/kids/infant/etc.)",
     severity := "warning" },
   { id := "gmc_size_apparel", field := "size", type := "required", value := .rnone,
     message := "Size is required for clothing and shoes", severity := "warning" },
   { id := "gmc_item_group_variants", field := "item_group_id", type := "required",
     value := .rnone, message := "Item group ID required for product variants",
     severity := "info" },
   { id := "gmc_material_recommended", field := "material", type := "required", value := .rnone,
     message := "Material improves product discoverability", severity := "info" },
   { id := "gmc_pattern_recommended", field := "pattern", type := "required", value := .rnone,
     message := "Pattern helps distinguish variants", severity := "info" },
   { id := "gmc_condition_recommended", field := "condition", type := "required", value := .rnone,
     message := "Condition (new/used/refurbished) should be specified", severity := "info" }]

/-- Embeds the value conversion of LoadFromFeedData (part_003 lines 252-261):
a string passes through, a float64 becomes json.Number(string(rune(int(v))))
rendered back, any other value is carried as its JSON rendering. The null
case is unreachable from loadFromFeedData, which skips nil values first. -/
def loadFeedValueString : Fv → String
  | .str s => s
  | .num q => goRuneToString (goTruncInt q)
  | .boolean b => if b then "true" else "false"
  | .null => "null"
  | .other m => m

/-- Embeds LoadFromFeedData (part_003 lines 242-268): register every
non-null field whose converted value is non-empty, through RegisterFromFeed. -/
def loadFromFeedData (fields : List (String × Fv)) : List Evidence :=
  fields.foldl (fun acc kv =>
    match kv.2 with
    | .null => acc
    | v => if loadFeedValueString v = "" then acc else acc ++ [feedEvidence kv.1 (loadFeedValueString v)]) []

/-- The Scenario A record: title "basket nike", brand "Nike", every other
field checked by a default rule present and satisfying its rule. -/
def scenarioARecord : List (String × Fv) :=
  [("id", .str "SKU123"),
   ("title", .str "basket nike"),
   ("description", .str "Chaussures de basket confortables pour un usage quotidien et sportif."),
   ("link", .str "https://example.com/product"),
   ("image_link", .str "https://example.com/product.jpg"),
   ("price", .str "59.90 EUR"),
   ("availability", .str "in_stock"),
   ("brand", .str "Nike"),
   ("gtin", .str "1234567890123"),
   ("product_type", .str "Chaussures de basket"),
   ("google_product_category", .str "Apparel and Accessories"),
   ("color", .str "blanc"),
   ("gender", .str "unisex"),
   ("age_group", .str "adult"),
   ("size", .str "42"),
   ("item_group_id", .str "grp42"),
   ("material", .str "cuir"),
   ("pattern", .str "solid"),
   ("condition", .str "new")]

/-- The change-magnitude formula the source actually computes, restated for
the amended claim: one minus the Dice-style overlap — twice the sum, over the
distinct lower-cased words of before, of the minimum of the word's
multiplicities in the two strings, divided by the total number of word
occurrences; 0 when both strings are empty or neither has words, 1 when
exactly one string is empty. -/
def changeRatioSpec (before after : String) : ℚ :=
  if before = "" ∧ after = "" then 0
  else if before = "" ∨ after = "" then 1
  else
    let bw := goFields (goToLower before)
    let aw := goFields (goToLower after)
    let common := (bw.dedup.map (fun w => min (bw.count w) (aw.count w))).sum
    if bw.length + aw.length = 0 then 0
    else 1 - 2 * (common : ℚ) / ((bw.length + aw.length : ℕ) : ℚ)

/-!
## Theorems

One theorem per claim (with witnesses and counterexamples where required),
preceded by the shared helper lemmas.
-/

/-- Helper: folding an accumulating addition equals adding the mapped sum. -/
theorem foldl_add_map_sum (f : String → ℕ) (l : List String) (n : ℕ) :
    l.foldl (fun acc w => acc + f w) n = n + (l.map f).sum := by
  induction l generalizing n with
  | nil => simp
  | cons w ws ih => simp [ih, Nat.add_assoc]

/-- Helper: riskLowReasons only edits the reasons list. -/
theorem riskLowReasons_level (a : RiskAssessment) (st : String) (c cr : ℚ) :
    (riskLowReasons a st c cr).level = a.level := by
  unfold riskLowReasons; split_ifs <;> rfl

/-- Helper: riskLowReasons only edits the reasons list. -/
theorem riskLowReasons_requiresHuman (a : RiskAssessment) (st : String) (c cr : ℚ) :
    (riskLowReasons a st c cr).requiresHuman = a.requiresHuman := by
  unfold riskLowReasons; split_ifs <;> rfl

/-- Helper: the hard confidence floor at the end of riskSourceAndConfidence. -/
theorem riskSourceAndConfidence_floor (a : RiskAssessment) (st : String) (c : ℚ)
    (h : c < 1/2) :
    (riskSourceAndConfidence a st c).level = "high" ∧
      (riskSourceAndConfidence a st c).requiresHuman = true := by
  simp only [riskSourceAndConfidence]
  rw [if_pos h]
  exact ⟨rfl, rfl⟩

/-- Helper: the magnitude checks never lower an assessment that is already
high and flagged for a human. -/
theorem riskChangeMagnitude_preserves_high (a : RiskAssessment) (cr : ℚ)
    (h1 : a.level = "high") (h2 : a.requiresHuman = true) :
    (riskChangeMagnitude a cr).level = "high" ∧
      (riskChangeMagnitude a cr).requiresHuman = true := by
  simp only [riskChangeMagnitude]
  have h7 : ¬(cr > 7/10 ∧ a.level ≠ "high") := fun hc => hc.2 h1
  rw [if_neg h7]
  split_ifs with h9
  · exact ⟨rfl, rfl⟩
  · exact ⟨h1, h2⟩

/-- C3: for every field, before value, after value and source type, a
confidence below 0.5 forces assessChange to level "high" with
requires_human true, whatever the other checks do. -/
theorem claim3_risk_floor (field before after sourceType : String) (confidence : ℚ)
    (h : confidence < 1/2) :
    (assessChange field before after sourceType confidence).level = "high" ∧
      (assessChange field before after sourceType confidence).requiresHuman = true := by
  simp only [assessChange]
  have floor :=
    riskSourceAndConfidence_floor (riskFieldAndKeywords field before after confidence)
      sourceType confidence h
  have mag :=
    riskChangeMagnitude_preserves_high
      (riskSourceAndConfidence (riskFieldAndKeywords field before after confidence)
        sourceType confidence)
      (calculateChangeRatio before after) floor.1 floor.2
  rw [riskLowReasons_level, riskLowReasons_requiresHuman]
  exact mag

/-- C3 witness: the floor at the concrete confidence 0.4. -/
theorem claim3_risk_floor_witness :
    ((2 : ℚ)/5 < 1/2) ∧
      (assessChange "color" "blue" "red" "feed" (2/5)).level = "high" ∧
      (assessChange "color" "blue" "red" "feed" (2/5)).requiresHuman = true :=
  ⟨of_decide_eq_true (by with_unfolding_all rfl),
   claim3_risk_floor "color" "blue" "red" "feed" (2/5)
     (of_decide_eq_true (by with_unfolding_all rfl))⟩

/-- C4 counterexample: at before "a" and after "a b" the classifier's ratio
is 1/3 while one minus the DiffEngine similarity for the same pair is 1/2,
so calculateChangeRatio is not 1 minus the Jaccard similarity. -/
theorem claim4_change_ratio_counterexample :
    calculateChangeRatio "a" "a b" = 1/3 ∧
      1 - (computeDiff "title" "a" "a b").similarity = 1/2 ∧
      ((1 : ℚ)/3 ≠ 1/2) :=
  of_decide_eq_true (by with_unfolding_all rfl)

/-- C4 amended: calculateChangeRatio equals one minus the Dice-style multiset
overlap (twice the sum of minimum word multiplicities over the total word
count), with 0 for two empty or word-free strings and 1 when exactly one side
is empty — not 1 minus the DiffEngine's set-based Jaccard similarity. -/
theorem claim4_change_ratio_dice (before after : String) :
    calculateChangeRatio before after = changeRatioSpec before after := by
  unfold calculateChangeRatio changeRatioSpec
  by_cases hba : before = "" ∧ after = ""
  · rw [if_pos hba, if_pos hba]
  · rw [if_neg hba, if_neg hba]
    by_cases hb : before = ""
    · rw [if_pos hb, if_pos (Or.inl hb)]
    · rw [if_neg hb]
      by_cases ha : after = ""
      · rw [if_pos ha, if_pos (Or.inr ha)]
      · rw [if_neg ha, if_neg (by tauto : ¬(before = "" ∨ after = ""))]
        dsimp only
        rw [foldl_add_map_sum]
        split_ifs with ht
        · rfl
        · push_cast
          ring

/-- C5 counterexample: on a record with title "basket nike", brand "Nike" and
every other rule-checked field present and satisfying its rule, the default
rule set yields no violation, overall validity true, and a non-empty warning
list — because the default title minimum-length rule carries severity
"warning", not "error". The matcher oracle is irrelevant: the default rule
set has no pattern rule. -/
theorem claim5_scenario_a_counterexample :
    (validate (fun _ _ => false) defaultGMCRules (some scenarioARecord)).valid = true ∧
      (validate (fun _ _ => false) defaultGMCRules (some scenarioARecord)).violations = [] ∧
      (validate (fun _ _ => false) defaultGMCRules (some scenarioARecord)).warnings ≠ [] :=
  of_decide_eq_true (by with_unfolding_all rfl)

/-- C5 amended: validating the Scenario A record against the default rules
checks all 27 rules and yields zero violations, overall validity true, and
exactly one warning, on the title field from the min-length rule (whose
expected/actual strings are mangled by the rune cast of the bound 30 and the
length 11 into the control characters 0x1e and 0x0b). -/
theorem claim5_scenario_a_amended :
    (validate (fun _ _ => false) defaultGMCRules (some scenarioARecord)).valid = true ∧
      (validate (fun _ _ => false) defaultGMCRules (some scenarioARecord)).violations = [] ∧
      (validate (fun _ _ => false) defaultGMCRules (some scenarioARecord)).warnings =
        [{ ruleId := "gmc_title_min", field := "title",
           message := "Title should be at least 30 characters",
           expected := "\x1e+ characters", actual := "\x0b characters" }] ∧
      (validate (fun _ _ => false) defaultGMCRules (some scenarioARecord)).checked = 27 :=
  of_decide_eq_true (by with_unfolding_all rfl)

/-- C9 counterexample: the proposal (before "abcde", after "ab",
confidence 0.9) has an after length strictly under half the before length
(2·2 < 5) yet passes validateProposalDeterministic, because the code floors
len(before)/2 with integer division (5/2 = 2, and 2 < 2 fails). -/
theorem claim9_half_length_counterexample :
    validateProposalDeterministic
        { field := "title", before := "abcde", after := "ab", confidence := 9/10 } = true ∧
      2 * goStrLen "ab" < goStrLen "abcde" ∧
      "ab" ≠ "" ∧ "ab" ≠ "abcde" ∧ ((3 : ℚ)/10 ≤ 9/10) :=
  of_decide_eq_true (by with_unfolding_all rfl)

/-- C9 amended: the FastPipeline's deterministic screening rejects every
proposal whose after length is strictly below the floored integer half of its
before length, len(after) < len(before)/2 in Go integer division. -/
theorem claim9_half_length_floor (prop : FastProposal)
    (h : goStrLen prop.after < goStrLen prop.before / 2) :
    validateProposalDeterministic prop = false := by
  unfold validateProposalDeterministic
  split_ifs <;> rfl

/-- C9 witness: the rejection at after "a" against before "abcdef". -/
theorem claim9_half_length_floor_witness :
    goStrLen "a" < goStrLen "abcdef" / 2 ∧
      validateProposalDeterministic
        { field := "title", before := "abcdef", after := "a", confidence := 1 } = false :=
  ⟨of_decide_eq_true (by with_unfolding_all rfl),
   claim9_half_length_floor
     { field := "title", before := "abcdef", after := "a", confidence := 1 }
     (of_decide_eq_true (by with_unfolding_all rfl))⟩

/-- C10: converting the JSON number 42.5 through the validator's toString and
through the registry's feed-seeding conversion both produce the one-character
string "*" — the character at code point 42, the number's integer part — and
not the decimal rendering "42.5". -/
theorem claim10_numeric_rune_conversion :
    toStringGo (Fv.num (85/2)) = "*" ∧
      loadFeedValueString (Fv.num (85/2)) = "*" ∧
      ("*" : String) ≠ "42.5" :=
  of_decide_eq_true (by with_unfolding_all rfl)

/-- Helper: a URL-typed field whose value lacks an http or https scheme makes
isDescriptionNotValue flag the value. -/
theorem isDescriptionNotValue_of_url (value field : String)
    (h1 : urlFieldNames.any (fun uf => goContains (goToLower field) uf) = true)
    (h2 : goStartsWith value "http://" = false)
    (h3 : goStartsWith value "https://" = false) :
    isDescriptionNotValue value field = true := by
  simp [isDescriptionNotValue, h1, h2, h3]

/-- Helper: a price-typed field whose value holds no digit makes
isDescriptionNotValue flag the value. -/
theorem isDescriptionNotValue_of_price (value field : String)
    (h1 : priceFieldNames.any (fun pf => goToLower field == pf) = true)
    (h2 : goHasDigit value = false) :
    isDescriptionNotValue value field = true := by
  simp [isDescriptionNotValue, h1, h2]

/-- C2: the fast-mode deterministic screen rejects every candidate whose
after equals its before, whose after is empty, whose confidence is below
0.3, whose after for a URL-typed field lacks the http or https scheme the
code demands of a well-formed URL, or whose after for a price-typed field
holds no digit; and every candidate it keeps has after different from
before and non-empty. -/
theorem claim2_screening (field before after : String) (confidence : ℚ) :
    ((after = before ∨ after = "" ∨ confidence < 3/10 ∨
        (urlFieldNames.any (fun uf => goContains (goToLower field) uf) = true ∧
          goStartsWith after "http://" = false ∧ goStartsWith after "https://" = false) ∨
        (priceFieldNames.any (fun pf => goToLower field == pf) = true ∧
          goHasDigit after = false)) →
      fastModeKeeps field before after confidence = false) ∧
    (fastModeKeeps field before after confidence = true → after ≠ before ∧ after ≠ "") := by
  constructor
  · intro h
    unfold fastModeKeeps
    rcases h with h | h | h | ⟨hu1, hu2, hu3⟩ | ⟨hp1, hp2⟩
    · rw [if_pos (Or.inr h)]
    · rw [if_pos (Or.inl h)]
    · split_ifs <;> rfl
    · have hd := isDescriptionNotValue_of_url after field hu1 hu2 hu3
      split_ifs <;> rfl
    · have hd := isDescriptionNotValue_of_price after field hp1 hp2
      split_ifs <;> rfl
  · intro hk
    unfold fastModeKeeps at hk
    split_ifs at hk with h1 h2 h3
    push_neg at h1
    exact ⟨h1.2, h1.1⟩

/-- Helper: the Validate rule loop keeps validity equivalent to an empty
violations list. -/
theorem validateStep_foldl_inv (mp : String → String → Bool) (data : List (String × Fv))
    (rules : List ValidationRule) (res : ValidationResult)
    (h : res.valid = true ↔ res.violations = []) :
    ((rules.foldl (validateStep mp data) res).valid = true ↔
      (rules.foldl (validateStep mp data) res).violations = []) := by
  induction rules generalizing res with
  | nil => exact h
  | cons r rs ih =>
    rw [List.foldl_cons]
    apply ih
    unfold validateStep
    dsimp only
    cases hc : checkRule mp r (getFieldValue data r.field) with
    | none => simpa using h
    | some v =>
      split_ifs with hsev
      · simp
      · simpa using h

/-- C6: for every matcher oracle, rule set and input, the ValidationResult of
Validate is valid exactly when its violations list is empty; warnings are
bucketed separately and cannot influence the flag. -/
theorem claim6_validity_iff (mp : String → String → Bool) (rules : List ValidationRule)
    (productData : Option (List (String × Fv))) :
    (validate mp rules productData).valid = true ↔
      (validate mp rules productData).violations = [] := by
  cases productData with
  | none => simp [validate]
  | some data => exact validateStep_foldl_inv mp data rules _ (by simp)

/-- Helper: filtering a list by membership in itself keeps everything. -/
theorem filter_contains_self (l : List String) : l.filter (fun w => l.contains w) = l :=
  List.filter_eq_self.mpr (fun a ha => List.elem_iff.mpr ha)

/-- Helper: the spec's Jaccard similarity of a string with itself is 1. -/
theorem jaccardSimilarity_self (s : String) : jaccardSimilarity s s = 1 := by
  unfold jaccardSimilarity
  dsimp only
  by_cases hk : ((tokenize s).map goToLower).dedup = []
  · rw [if_pos ⟨hk, hk⟩]
  · rw [if_neg (fun hc => hk hc.1)]
    rw [filter_contains_self]
    have h0 : ((tokenize s).map goToLower).dedup.length ≠ 0 := by
      simpa [List.length_eq_zero] using hk
    have h1 : ((tokenize s).map goToLower).dedup.length +
        ((tokenize s).map goToLower).dedup.length -
        ((tokenize s).map goToLower).dedup.length =
        ((tokenize s).map goToLower).dedup.length := by omega
    rw [h1]
    exact div_self (by exact_mod_cast h0)

/-- C7: the similarity ComputeDiff reports is exactly the Jaccard index over
the lower-cased word sets (1.0 when both sets are empty), and the Scenario D
call returns changeType "modified", addedWords ["premium"], removedWords []
and similarity 0.75. -/
theorem claim7_jaccard :
    (∀ field before after,
        (computeDiff field before after).similarity = jaccardSimilarity before after) ∧
      computeDiff "title" "chaussure de sport" "chaussure de sport premium" =
        { field := "title", before := "chaussure de sport",
          after := "chaussure de sport premium", changeType := "modified",
          addedWords := ["premium"], removedWords := [], similarity := 3/4 } := by
  constructor
  · intro f b a
    by_cases h : b = a
    · subst h
      simp only [computeDiff, if_pos rfl]
      exact (jaccardSimilarity_self b).symm
    · unfold computeDiff jaccardSimilarity
      rw [if_neg h]
      dsimp only
      set bK := ((tokenize b).map goToLower).dedup with hbK
      set aK := ((tokenize a).map goToLower).dedup with haK
      by_cases hboth : bK = [] ∧ aK = []
      · rw [if_pos ⟨by simp [hboth.1], by simp [hboth.2]⟩, if_pos hboth]
      · have hlen : ¬(bK.length = 0 ∧ aK.length = 0) := by
          simp only [List.length_eq_zero]
          exact hboth
        rw [if_neg hlen, if_neg hboth]
        have hb1 : (bK.filter (fun w => aK.contains w)).length ≤ bK.length :=
          List.length_filter_le _ _
        by_cases hak : aK = []
        · have hbne : bK ≠ [] := fun h0 => hboth ⟨h0, hak⟩
          rw [hak]
          have hi : (bK.filter (fun w => ([] : List String).contains w)) = [] := by simp
          rw [hi]
          have hpos : 0 < bK.length := List.length_pos.mpr hbne
          rw [if_pos (by simpa using hpos)]
        · have hane : aK.length ≠ 0 := by simpa [List.length_eq_zero] using hak
          rw [if_pos (by omega)]
  · exact of_decide_eq_true (by with_unfolding_all rfl)

/-- Helper: the GetBestEvidence loop never drops back to no candidate. -/
theorem foldl_bestStep_some (l : List Evidence) (b : Evidence) :
    l.foldl bestStep (some b) ≠ none := by
  induction l generalizing b with
  | nil => simp
  | cons e rest ih =>
    rw [List.foldl_cons]
    unfold bestStep
    split_ifs with hv
    · exact ih b
    · dsimp only
      split_ifs with hc
      · exact ih e
      · exact ih b

/-- Helper: the GetBestEvidence loop yields no candidate exactly when every
entry is unverified. -/
theorem foldl_bestStep_none_iff (l : List Evidence) :
    l.foldl bestStep none = none ↔ ∀ ev ∈ l, ev.verified = false := by
  induction l with
  | nil => simp
  | cons e rest ih =>
    rw [List.foldl_cons]
    cases hv : e.verified with
    | false =>
      have hstep : bestStep none e = none := by simp [bestStep, hv]
      rw [hstep, ih]
      simp [List.forall_mem_cons, hv]
    | true =>
      have hstep : bestStep none e = some e := by simp [bestStep, hv]
      rw [hstep]
      simp [List.forall_mem_cons, hv, foldl_bestStep_some]

/-- Helper: a candidate produced by the GetBestEvidence loop is a verified
element of the list (unless it is the untouched accumulator), its confidence
dominates every verified element, and it dominates the accumulator. -/
theorem foldl_bestStep_spec (l : List Evidence) (acc : Option Evidence) (b : Evidence)
    (h : l.foldl bestStep acc = some b) :
    ((b ∈ l ∧ b.verified = true) ∨ acc = some b) ∧
      (∀ ev ∈ l, ev.verified = true → ev.confidence ≤ b.confidence) ∧
      (∀ a, acc = some a → a.confidence ≤ b.confidence) := by
  induction l generalizing acc with
  | nil =>
    simp only [List.foldl_nil] at h
    subst h
    refine ⟨Or.inr rfl, by simp, fun a ha => ?_⟩
    exact le_of_eq (congrArg Evidence.confidence (Option.some.inj ha)).symm
  | cons e rest ih =>
    rw [List.foldl_cons] at h
    obtain ⟨hmem, hrest, hacc⟩ := ih (bestStep acc e) h
    by_cases hv : e.verified = true
    · cases acc with
      | none =>
        have hstep : bestStep none e = some e := by simp [bestStep, hv]
        rw [hstep] at hmem hacc
        have heb : e.confidence ≤ b.confidence := hacc e rfl
        refine ⟨?_, ?_, by simp⟩
        · rcases hmem with ⟨hm1, hm2⟩ | hm
          · exact Or.inl ⟨List.mem_cons_of_mem _ hm1, hm2⟩
          · obtain rfl : e = b := Option.some.inj hm
            exact Or.inl ⟨List.mem_cons_self _ _, hv⟩
        · intro ev hev hver
          rcases List.mem_cons.mp hev with rfl | hm
          · exact heb
          · exact hrest ev hm hver
      | some a0 =>
        have hstep : bestStep (some a0) e =
            if a0.confidence < e.confidence then some e else some a0 := by
          simp [bestStep, hv]
        by_cases hc : a0.confidence < e.confidence
        · rw [hstep, if_pos hc] at hmem hacc
          have heb : e.confidence ≤ b.confidence := hacc e rfl
          refine ⟨?_, ?_, ?_⟩
          · rcases hmem with ⟨hm1, hm2⟩ | hm
            · exact Or.inl ⟨List.mem_cons_of_mem _ hm1, hm2⟩
            · obtain rfl : e = b := Option.some.inj hm
              exact Or.inl ⟨List.mem_cons_self _ _, hv⟩
          · intro ev hev hver
            rcases List.mem_cons.mp hev with rfl | hm
            · exact heb
            · exact hrest ev hm hver
          · intro a ha
            obtain rfl : a0 = a := Option.some.inj ha
            exact le_trans (le_of_lt hc) heb
        · rw [hstep, if_neg hc] at hmem hacc
          have hab : a0.confidence ≤ b.confidence := hacc a0 rfl
          refine ⟨?_, ?_, ?_⟩
          · rcases hmem with ⟨hm1, hm2⟩ | hm
            · exact Or.inl ⟨List.mem_cons_of_mem _ hm1, hm2⟩
            · exact Or.inr hm
          · intro ev hev hver
            rcases List.mem_cons.mp hev with rfl | hm
            · exact le_trans (not_lt.mp hc) hab
            · exact hrest ev hm hver
          · intro a ha
            obtain rfl : a0 = a := Option.some.inj ha
            exact hab
    · have hv' : e.verified = false := by simpa using hv
      have hstep : bestStep acc e = acc := by simp [bestStep, hv']
      rw [hstep] at hmem hacc
      refine ⟨?_, ?_, hacc⟩
      · rcases hmem with ⟨hm1, hm2⟩ | hm
        · exact Or.inl ⟨List.mem_cons_of_mem _ hm1, hm2⟩
        · exact Or.inr hm
      · intro ev hev hver
        rcases List.mem_cons.mp hev with rfl | hm
        · exact absurd hver hv
        · exact hrest ev hm hver

/-- C1: for every registry and field, GetBestEvidence returns none exactly
when the field has no verified evidence, and otherwise returns a verified
entry for the field whose confidence dominates every verified entry,
ignoring unverified entries whatever their confidence; in particular a field
holding an unverified web fact at 0.9 and a verified feed fact at 1.0 yields
the feed fact, in either registration order. -/
theorem claim1_best_evidence_trust :
    (∀ (reg : List Evidence) (field : String),
        (getBestEvidence reg field = none ↔
          ∀ ev ∈ getEvidenceForField reg field, ev.verified = false) ∧
        ∀ b, getBestEvidence reg field = some b →
          b ∈ getEvidenceForField reg field ∧ b.verified = true ∧
            ∀ ev ∈ getEvidenceForField reg field,
              ev.verified = true → ev.confidence ≤ b.confidence) ∧
      getBestEvidence [webEvidence "color" "blue" (9/10), feedEvidence "color" "red"] "color" =
        some (feedEvidence "color" "red") ∧
      getBestEvidence [feedEvidence "color" "red", webEvidence "color" "blue" (9/10)] "color" =
        some (feedEvidence "color" "red") := by
  refine ⟨fun reg field => ⟨foldl_bestStep_none_iff _, fun b hb => ?_⟩,
          of_decide_eq_true (by with_unfolding_all rfl),
          of_decide_eq_true (by with_unfolding_all rfl)⟩
  obtain ⟨hmem, hrest, _⟩ := foldl_bestStep_spec (getEvidenceForField reg field) none b hb
  rcases hmem with ⟨hm1, hm2⟩ | hm
  · exact ⟨hm1, hm2, hrest⟩
  · cases hm

/-- Helper: every evidence from a feed batch is verified at confidence 1. -/
theorem mem_registerFeedAll {e : Evidence} {pairs : List (String × String)}
    (h : e ∈ registerFeedAll pairs) : e.verified = true ∧ e.confidence = 1 := by
  obtain ⟨p, hp, rfl⟩ := List.mem_map.mp h
  exact ⟨rfl, rfl⟩

/-- Helper: over verified confidence-1 evidence, the GetBestEvidence loop
keeps a confidence-1 accumulator (the strict comparison never fires). -/
theorem foldl_bestStep_allfeed (vs : List Evidence) (b : Evidence)
    (hvs : ∀ e ∈ vs, e.verified = true ∧ e.confidence = 1) (hb : b.confidence = 1) :
    vs.foldl bestStep (some b) = some b := by
  induction vs with
  | nil => rfl
  | cons e rest ih =>
    rw [List.foldl_cons]
    have he := hvs e (List.mem_cons_self _ _)
    have hstep : bestStep (some b) e = some b := by simp [bestStep, he.1, he.2, hb]
    rw [hstep]
    exact ih (fun e' he' => hvs e' (List.mem_cons_of_mem _ he'))

/-- Helper: the best evidence of a pure feed batch is the first registration
for the field, which is the association-list lookup. -/
theorem getBest_registerFeedAll (pairs : List (String × String)) (f : String) :
    getBestEvidence (registerFeedAll pairs) f =
      (List.lookup f pairs).map (fun v => feedEvidence f v) := by
  induction pairs with
  | nil => rfl
  | cons p rest ih =>
    obtain ⟨k, v⟩ := p
    have hreg : registerFeedAll ((k, v) :: rest) = feedEvidence k v :: registerFeedAll rest := rfl
    rw [hreg]
    unfold getBestEvidence getEvidenceForField
    rw [List.filter_cons]
    cases hk : ((feedEvidence k v).field == f) with
    | true =>
      have hkf : k = f := eq_of_beq hk
      rw [if_pos rfl]
      rw [List.foldl_cons]
      have hstep : bestStep none (feedEvidence k v) = some (feedEvidence k v) := rfl
      rw [hstep]
      rw [foldl_bestStep_allfeed _ _
        (fun e he => mem_registerFeedAll (List.mem_of_mem_filter he)) rfl]
      subst hkf
      simp [List.lookup]
    | false =>
      rw [if_neg (by simp)]
      rw [show (List.filter (fun ev => ev.field == f) (registerFeedAll rest)).foldl bestStep none =
            getBestEvidence (registerFeedAll rest) f from rfl]
      rw [ih]
      have hkf : ¬(k = f) := fun he => by
        rw [he] at hk
        simp [feedEvidence] at hk
      have hfk : (f == k) = false := beq_eq_false_iff_ne.mpr (fun he => hkf he.symm)
      simp [List.lookup, hfk]

/-- Helper: the registered fields of a feed batch are the input field names. -/
theorem map_field_registerFeedAll (pairs : List (String × String)) :
    (registerFeedAll pairs).map Evidence.field = pairs.map Prod.fst := by
  induction pairs with
  | nil => rfl
  | cons p rest ih =>
    simp only [registerFeedAll, List.map_cons] at *
    rw [ih]
    rfl

/-- Helper: a successful lookup means the key is among the mapped keys. -/
theorem lookup_some_mem (pairs : List (String × String)) (f v : String)
    (h : List.lookup f pairs = some v) : f ∈ pairs.map Prod.fst := by
  induction pairs with
  | nil => cases h
  | cons p rest ih =>
    obtain ⟨k, w⟩ := p
    rw [List.map_cons]
    cases hk : (f == k) with
    | true =>
      rw [eq_of_beq hk]
      exact List.mem_cons_self _ _
    | false =>
      have hrec : List.lookup f ((k, w) :: rest) = List.lookup f rest := by
        simp [List.lookup, hk]
      rw [hrec] at h
      exact List.mem_cons_of_mem _ (ih h)

/-- C8: registering finitely many feed facts with pairwise distinct field
names and non-empty values on a fresh registry and reading back
GetAllowedFacts returns exactly that field-to-value map. -/
theorem claim8_feed_roundtrip (pairs : List (String × String))
    (hdist : pairs.Pairwise (fun p q => p.1 ≠ q.1))
    (hne : ∀ p ∈ pairs, p.2 ≠ "") :
    ∀ f, getAllowedFacts (registerFeedAll pairs) f = List.lookup f pairs := by
  intro f
  unfold getAllowedFacts
  rw [getBest_registerFeedAll]
  cases hlk : List.lookup f pairs with
  | none => split_ifs <;> rfl
  | some v =>
    have hcont : ((registerFeedAll pairs).map Evidence.field).contains f = true := by
      rw [map_field_registerFeedAll]
      exact List.elem_iff.mpr (lookup_some_mem pairs f v hlk)
    rw [if_pos hcont]
    rfl

/-- C8 witness: the round trip at a concrete two-fact batch. -/
theorem claim8_feed_roundtrip_witness :
    getAllowedFacts (registerFeedAll [("brand", "Nike"), ("color", "red")]) "brand" =
      some "Nike" :=
  (claim8_feed_roundtrip [("brand", "Nike"), ("color", "red")] (by decide) (by decide)
    "brand").trans (by decide)

end FeedEnrich
